import Mathlib

/-!
Shallow embedding of the you_scrapper repository (circuit breaker, retry
policy, resumable downloader, state manager, player artifact cache), with
theorems checking the natural-language specification against the code.

Python floats used for wall-clock times are modelled as integers (the
claims only compare time points linearly); byte strings as lists of
naturals; fallible code returns Except; regex search results are passed in
as the Option-valued inputs they produce.
-/

namespace YouScrapper

/-! ### circuit_breaker.py : CircuitBreaker -/

inductive CircuitState where
  | CLOSED
  | OPEN
  | HALF_OPEN
deriving DecidableEq, Repr

structure CircuitBreaker where
  failure_threshold : Nat
  recovery_timeout : ℤ
  recovery_threshold : Nat
  state : CircuitState
  failure_count : Nat
  success_count : Nat
  last_failure_time : Option ℤ
deriving DecidableEq, Repr

/-- CircuitBreaker.__init__ : fresh breaker in CLOSED state. -/
def mkCircuitBreaker (failure_threshold : Nat) (recovery_timeout : ℤ)
    (recovery_threshold : Nat) : CircuitBreaker :=
  { failure_threshold := failure_threshold
    recovery_timeout := recovery_timeout
    recovery_threshold := recovery_threshold
    state := .CLOSED
    failure_count := 0
    success_count := 0
    last_failure_time := none }

/-- CircuitBreaker._open_circuit -/
def openCircuit (cb : CircuitBreaker) : CircuitBreaker :=
  { cb with state := .OPEN, success_count := 0 }

/-- CircuitBreaker._half_open_circuit -/
def halfOpenCircuit (cb : CircuitBreaker) : CircuitBreaker :=
  { cb with state := .HALF_OPEN, success_count := 0 }

/-- CircuitBreaker._close_circuit -/
def closeCircuit (cb : CircuitBreaker) : CircuitBreaker :=
  { cb with state := .CLOSED, failure_count := 0, success_count := 0 }

/-- CircuitBreaker.record_success -/
def record_success (cb : CircuitBreaker) : CircuitBreaker :=
  match cb.state with
  | .HALF_OPEN =>
    let cb1 := { cb with success_count := cb.success_count + 1 }
    if cb1.recovery_threshold ≤ cb1.success_count then closeCircuit cb1 else cb1
  | .CLOSED => { cb with failure_count := 0 }
  | .OPEN => cb

/-- CircuitBreaker.record_failure; `now` stands for the time.time() call. -/
def record_failure (cb : CircuitBreaker) (now : ℤ) : CircuitBreaker :=
  let cb1 := { cb with failure_count := cb.failure_count + 1, last_failure_time := some now }
  match cb1.state with
  | .HALF_OPEN => openCircuit cb1
  | _ => if cb1.failure_threshold ≤ cb1.failure_count then openCircuit cb1 else cb1

/-- CircuitBreaker._should_attempt_reset -/
def shouldAttemptReset (cb : CircuitBreaker) (now : ℤ) : Bool :=
  match cb.last_failure_time with
  | none => true
  | some t => decide (cb.recovery_timeout ≤ now - t)

/-- CircuitBreaker.can_attempt : returns the boolean together with the
breaker after its side effect (the OPEN to HALF_OPEN transition). -/
def can_attempt (cb : CircuitBreaker) (now : ℤ) : Bool × CircuitBreaker :=
  match cb.state with
  | .CLOSED => (true, cb)
  | .OPEN =>
    if shouldAttemptReset cb now then (true, halfOpenCircuit cb) else (false, cb)
  | .HALF_OPEN => (true, cb)

/-- A sequence of can_attempt calls at the given times, collecting the
returned booleans and threading the breaker state. -/
def can_attempt_run (cb : CircuitBreaker) : List ℤ → List Bool × CircuitBreaker
  | [] => ([], cb)
  | t :: rest =>
    let r := can_attempt cb t
    let rs := can_attempt_run r.2 rest
    (r.1 :: rs.1, rs.2)

/-- Iterated record_failure: `record_failure_n cb ts k` performs k
consecutive record_failure calls at times ts 0, ts 1, .... -/
def record_failure_n (cb : CircuitBreaker) (ts : Nat → ℤ) : Nat → CircuitBreaker
  | 0 => cb
  | k + 1 => record_failure (record_failure_n cb ts k) (ts k)

/-! ### circuit_breaker.py : RetryPolicy -/

/-- RetryPolicy.RETRYABLE_ERRORS -/
def RETRYABLE_ERRORS : List String :=
  ["timeout", "connection_reset", "connection_refused", "network_unreachable"]

/-- RetryPolicy.TERMINAL_STATUS_CODES -/
def TERMINAL_STATUS_CODES : List Nat := [400, 401, 403, 404, 410]

/-- A raised Python exception as seen by with_retry: its str() message and
the optional status_code attribute. -/
structure PyError where
  msg : String
  status_code : Option Nat
deriving DecidableEq, Repr

/-- ASCII lower-casing of one character, as str.lower() acts on the ASCII
messages this code produces. -/
def lowerChar (c : Char) : Char :=
  if 'A' ≤ c ∧ c ≤ 'Z' then Char.ofNat (c.toNat + 32) else c

/-- Python `str(exception).lower()` as a character list. -/
def lowerStr (s : String) : List Char := s.data.map lowerChar

/-- Does the second list start with the first? -/
def headMatch : List Char → List Char → Bool
  | [], _ => true
  | _ :: _, [] => false
  | a :: as, b :: bs => a == b && headMatch as bs

/-- The Python substring test `needle in hay` on character lists. -/
def containsRun (needle : List Char) : List Char → Bool
  | [] => headMatch needle []
  | b :: bs => headMatch needle (b :: bs) || containsRun needle bs

/-- The test `any(retryable in error_msg for retryable in RETRYABLE_ERRORS)`
over the lowercased message. -/
def matchesRetryableMsg (msg : String) : Bool :=
  RETRYABLE_ERRORS.any fun r => containsRun r.data (lowerStr msg)

/-- RetryPolicy.is_retryable_error. `if status_code:` is Python truthiness:
None and 0 both fall through to the message check. -/
def is_retryable_error (e : PyError) : Bool :=
  match e.status_code with
  | some c =>
    if c ≠ 0 then
      if TERMINAL_STATUS_CODES.contains c then false
      else if 500 ≤ c ∧ c < 600 then true
      else matchesRetryableMsg e.msg
    else matchesRetryableMsg e.msg
  | none => matchesRetryableMsg e.msg

/-- Outcome of a RetryPolicy.with_retry run. -/
inductive RetryOutcome (T : Type) where
  | success (v : T)
  | raised (e : PyError)
  | breakerOpen
  | fellOff
deriving DecidableEq, Repr

/-- Observable result of with_retry: the outcome, how many times func was
invoked, and the final breaker. -/
structure RetryTrace (T : Type) where
  outcome : RetryOutcome T
  invocations : Nat
  breaker : Option CircuitBreaker
deriving DecidableEq, Repr

/-- The guard `if circuit_breaker and not circuit_breaker.can_attempt()` lifted to the
optional breaker. -/
def canAttemptOpt : Option CircuitBreaker → ℤ → Bool × Option CircuitBreaker
  | none, _ => (true, none)
  | some cb, now =>
    let r := can_attempt cb now
    (r.1, some r.2)

def recordSuccessOpt : Option CircuitBreaker → Option CircuitBreaker
  | none => none
  | some cb => some (record_success cb)

def recordFailureOpt : Option CircuitBreaker → ℤ → Option CircuitBreaker
  | none, _ => none
  | some cb, now => some (record_failure cb now)

/-- The `for attempt in range(max_retries + 1)` loop of
RetryPolicy.with_retry. `outcomes i` is what the i-th invocation of func
does; `tcheck i` / `tfail i` are the times of the can_attempt and
record_failure calls at attempt i; `count` counts invocations so far. -/
def with_retry_aux {T : Type} (outcomes : Nat → Except PyError T) (tcheck tfail : Nat → ℤ)
    (max_retries : Nat) :
    Nat → Nat → Option CircuitBreaker → Nat → Option PyError → RetryTrace T
  | 0, _attempt, cb, count, lastE =>
    match lastE with
    | some e => ⟨.raised e, count, cb⟩
    | none => ⟨.fellOff, count, cb⟩
  | fuel + 1, attempt, cb, count, _lastE =>
    match canAttemptOpt cb (tcheck attempt) with
    | (false, cb1) => ⟨.breakerOpen, count, cb1⟩
    | (true, cb1) =>
      match outcomes attempt with
      | .ok v => ⟨.success v, count + 1, recordSuccessOpt cb1⟩
      | .error e =>
        let cb2 := recordFailureOpt cb1 (tfail attempt)
        if is_retryable_error e = false then ⟨.raised e, count + 1, cb2⟩
        else if max_retries ≤ attempt then ⟨.raised e, count + 1, cb2⟩
        else with_retry_aux outcomes tcheck tfail max_retries fuel (attempt + 1) cb2
          (count + 1) (some e)

/-- RetryPolicy.with_retry. -/
def with_retry {T : Type} (outcomes : Nat → Except PyError T) (tcheck tfail : Nat → ℤ)
    (cb : Option CircuitBreaker) (max_retries : Nat) : RetryTrace T :=
  with_retry_aux outcomes tcheck tfail max_retries (max_retries + 1) 0 cb 0 none

/-! ### models.py / state_manager.py : job state -/

/-- ExtractionState (the fields the download/resume logic reads or writes;
pydantic datetime fields are integer time points here). -/
structure ExtractionState where
  job_id : String
  target_filename : String
  bytes_completed : Nat
  content_length : Option Nat
  etag : Option String
  last_modified : Option String
  last_successful_request : Option ℤ
  status : String
deriving DecidableEq, Repr

/-- Python truthiness of an optional string: None and "" are falsy. -/
def strTruthy : Option String → Bool
  | some s => !s.isEmpty
  | none => false

/-- StateManager.get_download_resume_info. `state` is what
load_extraction_state returned for the job id; `part_file_size` is the size
of the on-disk partial file, or none when os.path.exists is false. -/
def get_download_resume_info (state : Option ExtractionState)
    (part_file_size : Option Nat) : Nat × Option String × Option String :=
  match state with
  | none => (0, none, none)
  | some s =>
    let offset :=
      match part_file_size with
      | some actual_size => max actual_size s.bytes_completed
      | none => 0
    (offset, s.etag, s.last_modified)

/-- StateManager.update_download_progress. `state` is what
load_extraction_state returned; the result is the state it rewrites to disk
(none when the job is unknown: a logged no-op). -/
def update_download_progress (state : Option ExtractionState) (bytes_completed : Nat)
    (etag last_modified : Option String) (now : ℤ) : Option ExtractionState :=
  match state with
  | none => none
  | some s =>
    some { s with
      bytes_completed := bytes_completed
      last_successful_request := some now
      etag := if strTruthy etag then etag else s.etag
      last_modified := if strTruthy last_modified then last_modified else s.last_modified
      status := "in_progress" }

/-! ### downloader.py : ResumableDownloader._download_with_range -/

/-- The response object the transport hands back: status, validator
headers, and the chunk sequence iter_content yields. -/
structure HttpResponse where
  status_code : Nat
  etag : Option String
  last_modified : Option String
  content_length : Option Nat
  chunks : List (List Nat)
deriving DecidableEq, Repr

/-- The chunk-writing loop of _download_with_range: returns the part-file
content, the final bytes_written, and the bytes_completed values passed to
update_download_progress at the every-10-chunks checkpoints (in order).
Empty chunks are falsy in Python and are skipped whole. -/
def writeChunks : List (List Nat) → List Nat → Nat → Nat → List Nat × Nat × List Nat
  | [], file, bytes_written, _chunk_count => (file, bytes_written, [])
  | c :: rest, file, bytes_written, chunk_count =>
    if c.isEmpty then writeChunks rest file bytes_written chunk_count
    else
      let bw := bytes_written + c.length
      let cc := chunk_count + 1
      let r := writeChunks rest (file ++ c) bw cc
      if cc % 10 = 0 then (r.1, r.2.1, bw :: r.2.2) else r

/-- Successful outcome of one _download_with_range attempt: the file open
mode it used, the resulting part-file content, the final bytes_written, and
every bytes_completed value checkpointed to the state manager (the
mid-stream ones plus the final update). -/
structure DownloadOk where
  mode : String
  file : List Nat
  bytes_written : Nat
  checkpoints : List Nat
deriving DecidableEq, Repr

/-- ResumableDownloader._download_with_range. `part_file` is the on-disk
partial content the attempt starts from; a raised exception is an
`Except.error` carrying the message. -/
def download_with_range (part_file : List Nat) (offset : Nat)
    (expected_etag : Option String) (_expected_last_modified : Option String)
    (resp : HttpResponse) : Except String DownloadOk :=
  if offset > 0 ∧ resp.status_code ≠ 200 ∧ resp.status_code ≠ 206 then
    .error ("Range request failed: " ++ toString resp.status_code)
  else if offset = 0 ∧ resp.status_code ≠ 200 then
    .error ("Download request failed: " ++ toString resp.status_code)
  else
    let current_etag := resp.etag
    let offset1 :=
      if strTruthy expected_etag ∧ strTruthy current_etag ∧ expected_etag ≠ current_etag
      then 0 else offset
    let mode := if offset1 > 0 then "ab" else "wb"
    let file0 := if offset1 > 0 then part_file else []
    let r := writeChunks resp.chunks file0 offset1 0
    .ok ⟨mode, r.1, r.2.1, r.2.2 ++ [r.2.1]⟩

/-! ### player_artifacts.py : STS extraction and the artifact cache -/

/-- The two re.search results _extract_sts_safe computes on the player JS:
the captured digit group of the sts pattern, then of the
signatureTimestamp pattern. -/
structure StsSearch where
  sts_match : Option String
  signature_timestamp_match : Option String
deriving DecidableEq, Repr

/-- PlayerArtifactManager._extract_sts_safe. -/
def extract_sts_safe (js : StsSearch) : String :=
  match js.sts_match with
  | some v => v
  | none =>
    match js.signature_timestamp_match with
    | some v => v
    | none => "19000"

/-- IYEConfig.PLAYER_CACHE_SIZE -/
def PLAYER_CACHE_SIZE : Nat := 10

/-- The PlayerArtifact fields the cache logic touches. -/
structure CachedArtifact where
  player_version_id : String
  extracted_sts : String
  created_at : ℤ
deriving DecidableEq, Repr

/-- The in-memory artifact cache: a Python dict in insertion order. -/
abbrev ArtifactCache : Type := List (String × CachedArtifact)

/-- Python dict assignment `d[k] = v`: update in place keeps the key's
position; a new key is appended. -/
def dictInsert (cache : ArtifactCache) (k : String) (v : CachedArtifact) : ArtifactCache :=
  if cache.any (fun p => p.1 == k) then
    cache.map fun p => if p.1 == k then (k, v) else p
  else cache ++ [(k, v)]

/-- One comparison step of Python `min(keys, key=created_at)`: the current
best is kept on ties, so the leftmost minimal entry wins. -/
def minStep (best q : String × CachedArtifact) : String × CachedArtifact :=
  if q.2.created_at < best.2.created_at then q else best

/-- Python `min(self._artifact_cache.keys(), key=created_at)` paired with
the artifact it selects. -/
def minByCreated (cache : ArtifactCache) : Option (String × CachedArtifact) :=
  match cache with
  | [] => none
  | p :: rest => some (rest.foldl minStep p)

/-- Python `del d[k]`. -/
def dictRemove (cache : ArtifactCache) (k : String) : ArtifactCache :=
  cache.filter fun p => !(p.1 == k)

/-- PlayerArtifactManager._add_to_cache. -/
def add_to_cache (cache : ArtifactCache) (a : CachedArtifact) : ArtifactCache :=
  let c1 := dictInsert cache a.player_version_id a
  if PLAYER_CACHE_SIZE < c1.length then
    match minByCreated c1 with
    | some oldest => dictRemove c1 oldest.1
    | none => c1
  else c1

/-- PlayerArtifactManager._get_from_cache. `disk` is what
state_manager.load_player_artifact returned for the version id (none when
absent or expired). Returns the artifact found and the cache afterwards. -/
def get_from_cache (cache : ArtifactCache) (version_id : String)
    (disk : Option CachedArtifact) : Option CachedArtifact × ArtifactCache :=
  match cache.find? (fun p => p.1 == version_id) with
  | some p => (some p.2, cache)
  | none =>
    match disk with
    | some a => (some a, dictInsert cache version_id a)
    | none => (none, cache)

/-- A ten-entry cache (exactly PLAYER_CACHE_SIZE many distinct keys), used
to exercise the cache operations at capacity. -/
def exampleCache : ArtifactCache :=
  (List.range 10).map fun i => (Nat.repr i, ⟨Nat.repr i, "19000", (i : ℤ)⟩)

/-! ## Theorems -/

/-- Fewer than threshold-many consecutive failures from a fresh Closed
breaker leave it Closed, counting them exactly. -/
theorem record_failure_closed_run (cb : CircuitBreaker) (ts : Nat → ℤ) :
    ∀ k, cb.state = .CLOSED → cb.failure_count = 0 → k < cb.failure_threshold →
      (record_failure_n cb ts k).state = .CLOSED ∧
      (record_failure_n cb ts k).failure_count = k ∧
      (record_failure_n cb ts k).failure_threshold = cb.failure_threshold := by
  intro k hs hc hk
  induction k with
  | zero => exact ⟨hs, hc, rfl⟩
  | succ k ih =>
    obtain ⟨ihs, ihc, iht⟩ := ih (Nat.lt_of_succ_lt hk)
    simp only [record_failure_n, record_failure, ihs, ihc, iht]
    have : ¬ cb.failure_threshold ≤ k + 1 := Nat.not_le_of_lt hk
    simp [this, ihs, ihc, iht]

/-- C6: from a Closed breaker with failure threshold F and a zero failure
count, every run of fewer than F consecutive record_failure calls leaves
the state Closed, and exactly F consecutive calls flips the state to
Open. -/
theorem breaker_threshold_flip (cb : CircuitBreaker) (ts : Nat → ℤ) (F : Nat)
    (hs : cb.state = .CLOSED) (hc : cb.failure_count = 0)
    (hF : cb.failure_threshold = F) :
    (∀ k, k < F → (record_failure_n cb ts k).state = .CLOSED) ∧
    (1 ≤ F → (record_failure_n cb ts F).state = .OPEN) := by
  constructor
  · intro k hk
    exact (record_failure_closed_run cb ts k hs hc (hF ▸ hk)).1
  · intro hF1
    obtain ⟨k, rfl⟩ : ∃ k, F = k + 1 := ⟨F - 1, (Nat.succ_pred_eq_of_pos hF1).symm⟩
    obtain ⟨ihs, ihc, iht⟩ :=
      record_failure_closed_run cb ts k hs hc (hF ▸ Nat.lt_succ_self k)
    simp only [record_failure_n, record_failure, ihs, ihc, iht, hF]
    simp [openCircuit]

/-- C6 witness: a fresh breaker with threshold 5 stays Closed through four
failures and is Open after the fifth. -/
theorem breaker_threshold_flip_witness :
    (record_failure_n (mkCircuitBreaker 5 60 2) (fun _ => 0) 4).state = .CLOSED ∧
    (record_failure_n (mkCircuitBreaker 5 60 2) (fun _ => 0) 5).state = .OPEN :=
  ⟨(breaker_threshold_flip (mkCircuitBreaker 5 60 2) (fun _ => 0) 5 rfl rfl rfl).1 4
      (by decide),
   (breaker_threshold_flip (mkCircuitBreaker 5 60 2) (fun _ => 0) 5 rfl rfl rfl).2
      (by decide)⟩

/-- C7: while a breaker is Open with lastFailureTime t, every can_attempt
call strictly before t + recoveryTimeout returns false and leaves the
breaker unchanged (still Open); the first call at or after
t + recoveryTimeout returns true and transitions the state to HalfOpen;
and a can_attempt call on a HalfOpen breaker returns true without any
further transition, so the Open-to-HalfOpen transition happens exactly
once. -/
theorem breaker_open_gate :
    (∀ (cb : CircuitBreaker) (t : ℤ) (times : List ℤ),
      cb.state = .OPEN → cb.last_failure_time = some t →
      (∀ τ ∈ times, τ - t < cb.recovery_timeout) →
      can_attempt_run cb times = (times.map fun _ => false, cb)) ∧
    (∀ (cb : CircuitBreaker) (t now : ℤ),
      cb.state = .OPEN → cb.last_failure_time = some t →
      cb.recovery_timeout ≤ now - t →
      can_attempt cb now = (true, halfOpenCircuit cb) ∧
      (halfOpenCircuit cb).state = .HALF_OPEN) ∧
    (∀ (cb : CircuitBreaker) (now : ℤ),
      cb.state = .HALF_OPEN → can_attempt cb now = (true, cb)) := by
  refine ⟨?_, ?_, ?_⟩
  · intro cb t times hs hl htimes
    induction times with
    | nil => rfl
    | cons τ rest ih =>
      have hτ : ¬ cb.recovery_timeout ≤ τ - t :=
        not_le_of_lt (htimes τ (List.mem_cons_self τ rest))
      have hone : can_attempt cb τ = (false, cb) := by
        simp [can_attempt, hs, shouldAttemptReset, hl, hτ]
      simp only [can_attempt_run, hone]
      simp [ih fun σ hσ => htimes σ (List.mem_cons_of_mem τ hσ)]
  · intro cb t now hs hl hnow
    refine ⟨?_, rfl⟩
    simp [can_attempt, hs, shouldAttemptReset, hl, hnow]
  · intro cb now hs
    simp [can_attempt, hs]

/-- C7 witness: an Open breaker with lastFailureTime 100 and timeout 60
returns false at times 110 and 130 without changing state, returns true at
160 moving to HalfOpen, and the HalfOpen breaker answers true. -/
theorem breaker_open_gate_witness :
    can_attempt_run ⟨5, 60, 2, .OPEN, 5, 0, some 100⟩ [110, 130]
      = ([false, false], ⟨5, 60, 2, .OPEN, 5, 0, some 100⟩) ∧
    can_attempt ⟨5, 60, 2, .OPEN, 5, 0, some 100⟩ 160
      = (true, halfOpenCircuit ⟨5, 60, 2, .OPEN, 5, 0, some 100⟩) ∧
    can_attempt (halfOpenCircuit ⟨5, 60, 2, .OPEN, 5, 0, some 100⟩) 200
      = (true, halfOpenCircuit ⟨5, 60, 2, .OPEN, 5, 0, some 100⟩) :=
  ⟨breaker_open_gate.1 ⟨5, 60, 2, .OPEN, 5, 0, some 100⟩ 100 [110, 130] rfl rfl
      (by decide),
   (breaker_open_gate.2.1 ⟨5, 60, 2, .OPEN, 5, 0, some 100⟩ 100 160 rfl rfl
      (by decide)).1,
   breaker_open_gate.2.2 (halfOpenCircuit ⟨5, 60, 2, .OPEN, 5, 0, some 100⟩) 200 rfl⟩

/-- The retry loop performs at most `fuel` further invocations. -/
theorem with_retry_aux_invocations_le {T : Type} (outcomes : Nat → Except PyError T)
    (tcheck tfail : Nat → ℤ) (max_retries : Nat) :
    ∀ (fuel attempt : Nat) (cb : Option CircuitBreaker) (count : Nat)
      (lastE : Option PyError),
      (with_retry_aux outcomes tcheck tfail max_retries fuel attempt cb count
        lastE).invocations ≤ count + fuel := by
  intro fuel
  induction fuel with
  | zero =>
    intro attempt cb count lastE
    cases lastE <;> simp [with_retry_aux]
  | succ fuel ih =>
    intro attempt cb count lastE
    rcases h : canAttemptOpt cb (tcheck attempt) with ⟨b, cb1⟩
    cases b
    · simp [with_retry_aux, h]
    · rcases ho : outcomes attempt with e | v
      · simp only [with_retry_aux, h, ho]
        split_ifs with hr ha
        · dsimp only
          omega
        · dsimp only
          omega
        · calc (with_retry_aux outcomes tcheck tfail max_retries fuel (attempt + 1)
                  (recordFailureOpt cb1 (tfail attempt)) (count + 1) (some e)).invocations
              ≤ (count + 1) + fuel := ih (attempt + 1) _ (count + 1) (some e)
            _ = count + (fuel + 1) := by omega
      · simp only [with_retry_aux, h, ho]
        omega

/-- C4: with_retry invokes the wrapped operation at most maxRetries + 1
times; and whenever an attempt's failure is classified non-retryable
(Terminal: a status in TERMINAL_STATUS_CODES, or a non-5xx error whose
message matches no known transient substring), the loop records the
failure in the breaker and re-raises that exception immediately, invoking
the operation exactly once more and never again. -/
theorem with_retry_budget_and_terminal {T : Type} :
    (∀ (outcomes : Nat → Except PyError T) (tcheck tfail : Nat → ℤ)
        (cb : Option CircuitBreaker) (max_retries : Nat),
      (with_retry outcomes tcheck tfail cb max_retries).invocations ≤ max_retries + 1) ∧
    (∀ (outcomes : Nat → Except PyError T) (tcheck tfail : Nat → ℤ)
        (max_retries fuel attempt : Nat) (cb cb1 : Option CircuitBreaker)
        (count : Nat) (lastE : Option PyError) (e : PyError),
      canAttemptOpt cb (tcheck attempt) = (true, cb1) →
      outcomes attempt = .error e →
      is_retryable_error e = false →
      with_retry_aux outcomes tcheck tfail max_retries (fuel + 1) attempt cb count lastE
        = ⟨.raised e, count + 1, recordFailureOpt cb1 (tfail attempt)⟩) := by
  constructor
  · intro outcomes tcheck tfail cb max_retries
    have h := with_retry_aux_invocations_le outcomes tcheck tfail max_retries
      (max_retries + 1) 0 cb 0 none
    simpa [with_retry] using h
  · intro outcomes tcheck tfail max_retries fuel attempt cb cb1 count lastE e hca ho hr
    simp [with_retry_aux, hca, ho, hr]

/-- C4 witness: with a terminal 404 error, a budget of 3 retries, and no
breaker, the loop stops after a single invocation and re-raises. -/
theorem with_retry_budget_and_terminal_witness :
    (with_retry (T := Nat) (fun _ => .error ⟨"boom", some 404⟩) (fun _ => 0) (fun _ => 0)
        none 3).invocations ≤ 3 + 1 ∧
    with_retry_aux (T := Nat) (fun _ => .error ⟨"boom", some 404⟩) (fun _ => 0) (fun _ => 0)
        3 4 0 none 0 none
      = ⟨.raised ⟨"boom", some 404⟩, 0 + 1, recordFailureOpt none 0⟩ :=
  ⟨with_retry_budget_and_terminal.1 (fun _ => .error ⟨"boom", some 404⟩) (fun _ => 0)
      (fun _ => 0) none 3,
   with_retry_budget_and_terminal.2 (fun _ => .error ⟨"boom", some 404⟩) (fun _ => 0)
      (fun _ => 0) 3 3 0 none none 0 none ⟨"boom", some 404⟩ rfl rfl (by decide)⟩

/-- The chunk loop appends exactly the chunk bytes to the file it was
given (empty chunks contribute nothing). -/
theorem writeChunks_file :
    ∀ (cs : List (List Nat)) (f : List Nat) (bw n : Nat),
      (writeChunks cs f bw n).1 = f ++ cs.flatten := by
  intro cs
  induction cs with
  | nil => intro f bw n; simp [writeChunks]
  | cons c rest ih =>
    intro f bw n
    by_cases hc : c.isEmpty
    · have : c = [] := List.isEmpty_iff.mp hc
      simp [writeChunks, hc, ih, this]
    · by_cases h10 : (n + 1) % 10 = 0 <;>
        simp [writeChunks, hc, h10, ih (f ++ c) (bw + c.length) (n + 1),
          List.append_assoc]

/-- Every checkpointed value (the mid-stream ones and the final
bytes_written) is at least the starting bytes_written, and the list of
them, final value included, is pairwise non-decreasing. -/
theorem writeChunks_checkpoints_sorted :
    ∀ (cs : List (List Nat)) (f : List Nat) (bw n : Nat),
      (∀ x ∈ (writeChunks cs f bw n).2.2 ++ [(writeChunks cs f bw n).2.1], bw ≤ x) ∧
      List.Pairwise (· ≤ ·)
        ((writeChunks cs f bw n).2.2 ++ [(writeChunks cs f bw n).2.1]) := by
  intro cs
  induction cs with
  | nil =>
    intro f bw n
    simp [writeChunks]
  | cons c rest ih =>
    intro f bw n
    by_cases hc : c.isEmpty
    · simpa [writeChunks, hc] using ih f bw n
    · obtain ⟨ihmem, ihpw⟩ := ih (f ++ c) (bw + c.length) (n + 1)
      have hbw : bw ≤ bw + c.length := Nat.le_add_right bw c.length
      by_cases h10 : (n + 1) % 10 = 0
      case neg =>
        constructor
        · intro x hx
          exact le_trans hbw
            (ihmem x (by simpa [writeChunks, hc, h10] using hx))
        · simpa [writeChunks, hc, h10] using ihpw
      case pos =>
        constructor
        · intro x hx
          have hx2 : x = bw + c.length ∨
              x ∈ (writeChunks rest (f ++ c) (bw + c.length) (n + 1)).2.2 ++
                [(writeChunks rest (f ++ c) (bw + c.length) (n + 1)).2.1] := by
            simpa [writeChunks, hc, h10, List.mem_cons] using hx
          rcases hx2 with rfl | hx2
          · exact hbw
          · exact le_trans hbw (ihmem x hx2)
        · have hcons : List.Pairwise (· ≤ ·)
              ((bw + c.length) ::
                ((writeChunks rest (f ++ c) (bw + c.length) (n + 1)).2.2 ++
                  [(writeChunks rest (f ++ c) (bw + c.length) (n + 1)).2.1])) :=
            List.pairwise_cons.mpr ⟨fun x hx => ihmem x hx, ihpw⟩
          simpa [writeChunks, hc, h10] using hcons

/-- C3 amended: for a job with persisted state, resume_info returns
offset = max(actual partial-file size, persisted bytesCompleted) when the
partial file exists, and offset = 0 when the partial file is absent; the
persisted validators are returned either way. -/
theorem resume_info_offset (s : ExtractionState) (psize : Option Nat) :
    get_download_resume_info (some s) psize
      = (match psize with
          | some actual_size => max actual_size s.bytes_completed
          | none => 0,
         s.etag, s.last_modified) := by
  cases psize <;> rfl

/-- C3 counterexample: with persisted bytesCompleted = 5 and no partial
file on disk, resume_info returns offset 0, not the persisted value 5 that
max(bytesCompleted, 0) would give. -/
theorem resume_info_absent_file_counterexample :
    get_download_resume_info
        (some ⟨"job", "out.mp4", 5, none, some "e1", none, none, "in_progress"⟩) none
      = (0, some "e1", none) ∧ (0 : Nat) ≠ 5 :=
  ⟨rfl, by decide⟩

/-- C10: with no persisted job state, resume_info returns offset 0 and no
validators whatever partial file sits on disk; and a fresh download at
offset 0 opens the part file in truncating write mode, so the resulting
content is exactly the response body, ignoring any orphan partial
content. -/
theorem no_state_fresh_download :
    (∀ psize, get_download_resume_info none psize = (0, none, none)) ∧
    (∀ (part_file : List Nat) (elm : Option String) (resp : HttpResponse),
      resp.status_code = 200 →
      ∃ r, download_with_range part_file 0 none elm resp = .ok r ∧
        r.mode = "wb" ∧ r.file = resp.chunks.flatten) := by
  constructor
  · intro psize; rfl
  · intro part_file elm resp h200
    refine ⟨⟨"wb", (writeChunks resp.chunks [] 0 0).1,
      (writeChunks resp.chunks [] 0 0).2.1,
      (writeChunks resp.chunks [] 0 0).2.2 ++ [(writeChunks resp.chunks [] 0 0).2.1]⟩,
      ?_, rfl, ?_⟩
    · simp [download_with_range, h200, strTruthy]
    · simpa using writeChunks_file resp.chunks [] 0 0

/-- C10 witness: no job state plus a 7-byte orphan partial file still
resumes at 0, and the fresh 200 download truncates, leaving only the
response bytes. -/
theorem no_state_fresh_download_witness :
    get_download_resume_info none (some 7) = (0, none, none) ∧
    ∃ r, download_with_range [9, 9] 0 none none ⟨200, none, none, none, [[1, 2]]⟩ = .ok r ∧
      r.mode = "wb" ∧
      r.file = (⟨200, none, none, none, [[1, 2]]⟩ : HttpResponse).chunks.flatten :=
  ⟨no_state_fresh_download.1 (some 7),
   no_state_fresh_download.2 [9, 9] none ⟨200, none, none, none, [[1, 2]]⟩ rfl⟩

/-- C2 amended: on a resumed attempt (offset > 0), only a status outside
{200, 206} is a hard failure raising an exception out of the attempt; a
200 (full-body) response is accepted and, when the recorded validator does
not force a reset, the attempt appends the whole response body after the
existing partial bytes. -/
theorem resumed_status_gate (part_file : List Nat) (offset : Nat)
    (ee elm : Option String) (resp : HttpResponse) :
    (offset > 0 → resp.status_code ≠ 200 → resp.status_code ≠ 206 →
      download_with_range part_file offset ee elm resp
        = .error ("Range request failed: " ++ toString resp.status_code)) ∧
    (offset > 0 → resp.status_code = 200 →
      ∃ r, download_with_range part_file offset none elm resp = .ok r ∧
        r.mode = "ab" ∧ r.file = part_file ++ resp.chunks.flatten) := by
  constructor
  · intro hoff h200 h206
    simp [download_with_range, hoff, h200, h206]
  · intro hoff h200
    refine ⟨⟨"ab", (writeChunks resp.chunks part_file offset 0).1,
      (writeChunks resp.chunks part_file offset 0).2.1,
      (writeChunks resp.chunks part_file offset 0).2.2 ++
        [(writeChunks resp.chunks part_file offset 0).2.1]⟩, ?_, ?_, ?_⟩
    · simp [download_with_range, hoff, h200, strTruthy, Nat.pos_iff_ne_zero.mp hoff]
    · rfl
    · simpa using writeChunks_file resp.chunks part_file offset 0

/-- C2 witness: a resumed attempt at offset 1 raises on a 503 response,
and accepts a 200 response appending its body. -/
theorem resumed_status_gate_witness :
    download_with_range [3] 1 none none ⟨503, none, none, none, []⟩
      = .error ("Range request failed: " ++ toString 503) ∧
    ∃ r, download_with_range [3] 1 none none ⟨200, none, none, none, [[5]]⟩ = .ok r ∧
      r.mode = "ab" ∧
      r.file = [3] ++ (⟨200, none, none, none, [[5]]⟩ : HttpResponse).chunks.flatten :=
  ⟨(resumed_status_gate [3] 1 none none ⟨503, none, none, none, []⟩).1 (by decide)
      (by decide) (by decide),
   (resumed_status_gate [3] 1 none none ⟨200, none, none, none, [[5]]⟩).2 (by decide) rfl⟩

/-- C2 counterexample: a resumed attempt (offset 5) receiving a non-partial
200 response does not raise: the attempt succeeds in append mode with the
full body written after the 5 partial bytes, so a non-206 response is not
always a hard failure and silent append does occur. -/
theorem resumed_200_accepted_counterexample :
    download_with_range (List.replicate 5 3) 5 none none
        ⟨200, none, none, some 7, [[1, 2, 3, 4, 5, 6, 7]]⟩
      = .ok ⟨"ab", [3, 3, 3, 3, 3, 1, 2, 3, 4, 5, 6, 7], 12, [12]⟩ := rfl

/-- C1: code-bug demonstration. A resumed attempt at offset 100 whose
expected validator "a" mismatches the response validator "b" resets the
offset and truncates (mode "wb", no partial bytes kept), but it keeps
writing the already-received range-request body: with a 206 response
carrying only the 50-byte tail of the changed 150-byte resource, the
attempt succeeds leaving a 50-byte file, not a complete, correctly-sized
copy of the resource. -/
theorem mismatch_restart_keeps_range_body :
    download_with_range (List.replicate 100 3) 100 (some "a") none
        ⟨206, some "b", none, some 50, [List.replicate 50 7]⟩
      = .ok ⟨"wb", List.replicate 50 7, 50, [50]⟩ ∧
    (List.replicate 50 7 : List Nat) ≠ List.replicate 150 7 := by
  exact ⟨rfl, by decide⟩

/-- C9 amended: within one pass of the chunk-writing loop the
bytesCompleted values checkpointed by an attempt are non-decreasing (the
final update included), and update_download_progress persists exactly the
value it is handed, marking the job in_progress; across a
validator-mismatch restart or a retried attempt, however, the persisted
value can decrease, because the assignment is unconditional and the
restarted pass begins again at a smaller bytes_written. -/
theorem download_checkpoints_monotone_within_attempt :
    (∀ (part_file : List Nat) (offset : Nat) (ee elm : Option String)
        (resp : HttpResponse) (r : DownloadOk),
      download_with_range part_file offset ee elm resp = .ok r →
      List.Chain' (· ≤ ·) r.checkpoints) ∧
    (∀ (s : ExtractionState) (b : Nat) (e lm : Option String) (now : ℤ),
      ∃ s2, update_download_progress (some s) b e lm now = some s2 ∧
        s2.bytes_completed = b ∧ s2.status = "in_progress") := by
  constructor
  · intro part_file offset ee elm resp r h
    simp only [download_with_range] at h
    split_ifs at h <;>
      first
        | exact Except.noConfusion h
        | · simp only [Except.ok.injEq] at h
            subst h
            exact ((writeChunks_checkpoints_sorted resp.chunks _ _ 0).2).chain'
  · intro s b e lm now
    exact ⟨_, rfl, rfl, rfl⟩

/-- C9 amended witness: a concrete fresh attempt checkpoints [2, 2], which
is non-decreasing, and a concrete progress update persists the handed
value. -/
theorem download_checkpoints_monotone_witness :
    List.Chain' (· ≤ ·) (DownloadOk.checkpoints ⟨"wb", [1, 2], 2, [2]⟩) ∧
    ∃ s2, update_download_progress
        (some ⟨"job", "out.mp4", 0, none, none, none, none, "pending"⟩) 7 none none 50
      = some s2 ∧ s2.bytes_completed = 7 ∧ s2.status = "in_progress" :=
  ⟨download_checkpoints_monotone_within_attempt.1 [] 0 none none
      ⟨200, none, none, none, [[1, 2]]⟩ ⟨"wb", [1, 2], 2, [2]⟩ rfl,
   download_checkpoints_monotone_within_attempt.2
      ⟨"job", "out.mp4", 0, none, none, none, none, "pending"⟩ 7 none none 50⟩

/-- C9 counterexample: a transfer whose first attempt checkpoints
bytesCompleted up to 100 and whose resumed attempt hits a validator
mismatch restarts at zero and checkpoints 20: the persisted sequence
[100, 100] ++ [20, 20] over the whole transfer is not monotonically
non-decreasing. -/
theorem download_checkpoints_restart_counterexample :
    download_with_range [] 0 none none
        ⟨200, some "a", none, some 100, List.replicate 10 (List.replicate 10 1)⟩
      = .ok ⟨"wb", List.replicate 100 1, 100, [100, 100]⟩ ∧
    get_download_resume_info
        (some ⟨"job", "out.mp4", 100, some 100, some "a", none, some 10, "in_progress"⟩)
        (some 100)
      = (100, some "a", none) ∧
    download_with_range (List.replicate 100 1) 100 (some "a") none
        ⟨206, some "b", none, some 20, List.replicate 10 (List.replicate 2 9)⟩
      = .ok ⟨"wb", List.replicate 20 9, 20, [20, 20]⟩ ∧
    ¬ List.Chain' (· ≤ ·) ([100, 100] ++ [20, 20]) := by
  refine ⟨rfl, rfl, rfl, fun hchain => ?_⟩
  exact absurd (List.chain'_cons.mp (List.chain'_cons.mp hchain).2).1 (by decide)

/-- C5: code-bug demonstration. When neither the sts pattern nor the
signatureTimestamp pattern matches the fetched player document,
_extract_sts_safe returns the default "19000" instead of raising, so the
absence of the required STS field never propagates as an error — contrary
to the function's own docstring ("Treats failure as hard error, not silent
fallback") and to the spec. -/
theorem sts_extraction_silently_defaults :
    extract_sts_safe ⟨none, none⟩ = "19000" := rfl

/-- The min fold returns one of the candidates. -/
theorem foldlMin_mem (rest : List (String × CachedArtifact)) :
    ∀ p, rest.foldl minStep p ∈ p :: rest := by
  induction rest with
  | nil => intro p; simp
  | cons q rest ih =>
    intro p
    have hstep : minStep p q = q ∨ minStep p q = p := by
      unfold minStep
      split_ifs <;> simp
    simp only [List.foldl_cons]
    rcases hstep with h2 | h2 <;> rw [h2]
    · rcases List.mem_cons.mp (ih q) with h | h <;> simp [h]
    · rcases List.mem_cons.mp (ih p) with h | h <;> simp [h]

/-- The min fold result is no younger than any candidate. -/
theorem foldlMin_le (rest : List (String × CachedArtifact)) :
    ∀ p x, x ∈ p :: rest →
      (rest.foldl minStep p).2.created_at ≤ x.2.created_at := by
  induction rest with
  | nil =>
    intro p x hx
    rw [List.mem_singleton.mp hx]
    exact le_refl _
  | cons q rest ih =>
    intro p x hx
    have hfp : (minStep p q).2.created_at ≤ p.2.created_at := by
      unfold minStep
      split_ifs with hq
      · exact le_of_lt hq
      · exact le_refl _
    have hfq : (minStep p q).2.created_at ≤ q.2.created_at := by
      unfold minStep
      split_ifs with hq
      · exact le_refl _
      · exact le_of_not_lt hq
    have hself : ((q :: rest).foldl minStep p).2.created_at
        ≤ (minStep p q).2.created_at := by
      simp only [List.foldl_cons]
      exact ih (minStep p q) (minStep p q) (List.mem_cons_self _ _)
    rcases List.mem_cons.mp hx with rfl | hx2
    · exact le_trans hself hfp
    · rcases List.mem_cons.mp hx2 with rfl | hx3
      · exact le_trans hself hfq
      · simp only [List.foldl_cons]
        exact ih (minStep p q) x (List.mem_cons_of_mem _ hx3)

/-- The entry minByCreated selects belongs to the cache. -/
theorem minByCreated_mem {cache : ArtifactCache} {q : String × CachedArtifact}
    (h : minByCreated cache = some q) : q ∈ cache := by
  cases cache with
  | nil => exact Option.noConfusion h
  | cons p rest =>
    simp only [minByCreated, Option.some.injEq] at h
    subst h
    exact foldlMin_mem rest p

/-- The entry minByCreated selects has the least created_at in the cache. -/
theorem minByCreated_le {cache : ArtifactCache} {q : String × CachedArtifact}
    (h : minByCreated cache = some q) :
    ∀ p ∈ cache, q.2.created_at ≤ p.2.created_at := by
  cases cache with
  | nil => exact Option.noConfusion h
  | cons p rest =>
    simp only [minByCreated, Option.some.injEq] at h
    subst h
    exact foldlMin_le rest p

/-- Dict assignment grows the dict by at most one entry. -/
theorem dictInsert_length (cache : ArtifactCache) (k : String) (v : CachedArtifact) :
    (dictInsert cache k v).length ≤ cache.length + 1 := by
  unfold dictInsert
  split_ifs <;> simp

/-- Assigning a key absent from the dict appends the new entry. -/
theorem dictInsert_fresh (cache : ArtifactCache) (k : String) (v : CachedArtifact)
    (h : ∀ p ∈ cache, p.1 ≠ k) : dictInsert cache k v = cache ++ [(k, v)] := by
  unfold dictInsert
  have hany : cache.any (fun p => p.1 == k) = false := by
    rw [List.any_eq_false]
    intro p hp
    simpa using h p hp
  simp [hany]

/-- Deleting the key of a present entry strictly shrinks the dict. -/
theorem dictRemove_mem_length (cache : ArtifactCache) (q : String × CachedArtifact)
    (hq : q ∈ cache) : (dictRemove cache q.1).length < cache.length := by
  unfold dictRemove
  exact List.length_filter_lt_length_iff_exists.mpr ⟨q, hq, by simp⟩

/-- C8 amended: _add_to_cache keeps the memory cache at no more than
PLAYER_CACHE_SIZE entries whenever it held no more than that before, and
an over-capacity insert of a fresh key evicts exactly the entry with the
least created_at (the leftmost such entry on ties); _get_from_cache,
however, inserts disk-loaded artifacts without any eviction, so the cache
as a whole is not bounded by every operation (see the counterexample). -/
theorem cache_insert_bound_and_eviction :
    (∀ (cache : ArtifactCache) (a : CachedArtifact),
      cache.length ≤ PLAYER_CACHE_SIZE →
      (add_to_cache cache a).length ≤ PLAYER_CACHE_SIZE) ∧
    (∀ (cache : ArtifactCache) (a : CachedArtifact),
      cache.length = PLAYER_CACHE_SIZE →
      (∀ p ∈ cache, p.1 ≠ a.player_version_id) →
      ∃ q, minByCreated (cache ++ [(a.player_version_id, a)]) = some q ∧
        (∀ p ∈ cache ++ [(a.player_version_id, a)],
          q.2.created_at ≤ p.2.created_at) ∧
        add_to_cache cache a
          = dictRemove (cache ++ [(a.player_version_id, a)]) q.1) := by
  constructor
  · intro cache a h
    have hin : (dictInsert cache a.player_version_id a).length ≤ cache.length + 1 :=
      dictInsert_length cache a.player_version_id a
    simp only [add_to_cache]
    split_ifs with hlen
    · rcases hmin : minByCreated (dictInsert cache a.player_version_id a) with _ | q
      · have hnil : dictInsert cache a.player_version_id a = [] := by
          cases hc : dictInsert cache a.player_version_id a with
          | nil => rfl
          | cons p rest => rw [hc] at hmin; exact Option.noConfusion hmin
        show (dictInsert cache a.player_version_id a).length ≤ PLAYER_CACHE_SIZE
        simp [hnil]
      · have hqmem : q ∈ dictInsert cache a.player_version_id a := minByCreated_mem hmin
        have hrem := dictRemove_mem_length _ q hqmem
        show (dictRemove (dictInsert cache a.player_version_id a) q.1).length
          ≤ PLAYER_CACHE_SIZE
        omega
    · omega
  · intro cache a hN hfresh
    have hins : dictInsert cache a.player_version_id a
        = cache ++ [(a.player_version_id, a)] :=
      dictInsert_fresh cache a.player_version_id a hfresh
    have hlen1 : (cache ++ [(a.player_version_id, a)]).length
        = PLAYER_CACHE_SIZE + 1 := by
      simp [hN]
    rcases hmin : minByCreated (cache ++ [(a.player_version_id, a)]) with _ | q
    · exfalso
      cases hc : cache ++ [(a.player_version_id, a)] with
      | nil => simp [hc] at hlen1
      | cons p rest => rw [hc] at hmin; exact Option.noConfusion hmin
    · refine ⟨q, rfl, minByCreated_le hmin, ?_⟩
      simp only [add_to_cache]
      rw [hins, hlen1, hmin]
      simp

/-- C8 amended witness: inserting an eleventh artifact into the ten-entry
exampleCache stays within capacity and evicts the least-recently-created
entry. -/
theorem cache_insert_bound_witness :
    (add_to_cache exampleCache ⟨"x", "19000", 99⟩).length ≤ PLAYER_CACHE_SIZE ∧
    ∃ q, minByCreated (exampleCache ++ [("x", ⟨"x", "19000", 99⟩)]) = some q ∧
      (∀ p ∈ exampleCache ++ [("x", ⟨"x", "19000", 99⟩)],
        q.2.created_at ≤ p.2.created_at) ∧
      add_to_cache exampleCache ⟨"x", "19000", 99⟩
        = dictRemove (exampleCache ++ [("x", ⟨"x", "19000", 99⟩)]) q.1 :=
  ⟨cache_insert_bound_and_eviction.1 exampleCache ⟨"x", "19000", 99⟩ (by decide),
   cache_insert_bound_and_eviction.2 exampleCache ⟨"x", "19000", 99⟩ (by decide)
     (by decide)⟩

/-- C8 counterexample: with the memory cache already at its capacity of
PLAYER_CACHE_SIZE, a _get_from_cache miss that loads the artifact from
disk inserts it with no eviction, leaving PLAYER_CACHE_SIZE + 1 = 11
entries, so not every cache operation keeps the cache within N entries. -/
theorem cache_capacity_counterexample :
    ((get_from_cache exampleCache "x" (some ⟨"x", "19000", 99⟩)).2).length
      = PLAYER_CACHE_SIZE + 1 := by decide

end YouScrapper
